import Mathlib

/-!
Verification development for `src/DOW30_Tracker_LIVE.py`, a desktop
market-data dashboard.  The Python source is shallowly embedded below:
pure functions become Lean functions, the mutable `MainWindow` session
fields become an explicit `SessionState` record that the operations
thread through, and the external world (yfinance, the data directory,
workbooks on disk) is an explicit `Env` record of black-box inputs.

Modelling conventions, used throughout:
* Python floats are modelled as rationals (`ℚ`); the one place where the
  IEEE value NaN is behaviourally relevant (`price_at_or_before_bucket`,
  via `pandas.Series.asof`) gets a dedicated value type `PFloat` with an
  explicit `nan` constructor.
* A Python value that is either a float or `None` becomes `Option ℚ`
  (`isinstance(x, (int, float))` failing ↦ `none`).
* Strings and file names are `String` / `List Char` over the ASCII
  repertoire plus the few literal glyphs the source uses.
* Python `datetime.date` values become `PDate := (year, month, day)`
  triples compared lexicographically, exactly as CPython compares dates.
-/

namespace DOW30

/-- The 32 fixed symbols, in source order (`TICKERS` in the source). -/
def TICKERS : List String :=
  ["AAPL","AMGN","AXP","BA","CAT","CRM","CSCO","CVX","DIS","DOW","GS","HD",
   "HON","IBM","JNJ","JPM","KO","MCD","MMM","MRK","MSFT","NKE","PG","TRV",
   "UNH","V","VZ","WMT","NVDA","AMZN","INTC","WBA"]

/-- Tickers are identified by their index in `TICKERS` (32 entries). -/
abbrev Ticker := Fin 32

/-- The 8 fixed daily buckets with their wall-clock thresholds
(`BUCKETS` in the source): label and `(hour, minute)`. -/
def BUCKETS : List (String × Nat × Nat) :=
  [("9:31 AM", 9, 31),
   ("10:00 AM", 10, 0),
   ("11:00 AM", 11, 0),
   ("12 NOON", 12, 0),
   ("1:00 PM", 13, 0),
   ("2:00 PM", 14, 0),
   ("3:00 PM", 15, 0),
   ("4:00 PM", 16, 0)]

/-- Threshold of bucket `i` (the `(h, m)` component of `BUCKETS[i]`). -/
def bucketThreshold (i : Fin 8) : Nat × Nat :=
  (BUCKETS.get ⟨i.val, i.isLt⟩).2

/-- A calendar date `(year, month, day)`; CPython's `datetime.date`
compares dates lexicographically on these components. -/
abbrev PDate := Nat × Nat × Nat

/-- Strict lexicographic date comparison, as CPython's `date.__lt__`. -/
def dateLt (a b : PDate) : Bool :=
  a.1 < b.1 || (a.1 = b.1 && (a.2.1 < b.2.1 || (a.2.1 = b.2.1 && a.2.2 < b.2.2)))

/-- Python tuple comparison `(hour, minute) >= (h, m)` used by
`_bucket_index_now`. -/
def hmGe (hm thr : Nat × Nat) : Bool :=
  thr.1 < hm.1 || (hm.1 = thr.1 && thr.2 ≤ hm.2)

/-- A spreadsheet cell value as seen through openpyxl: a number, a
string, or an empty cell (pandas writes `None`/NaN as an empty cell). -/
inductive Cell
  | num (q : ℚ)
  | strC (s : String)
  | empty
deriving DecidableEq

/-- A sheet is a (row, column) grid of cells, 1-indexed as in openpyxl. -/
abbrev Sheet := Nat → Nat → Cell

/-- A file name in the data directory. -/
abbrev FileName := List Char

/-- The black-box environment: the market-data provider and the data
directory contents.  `lastClose tk` is `last_close(tk)` (already an
`Optional[float]` in the source: any fetch failure gives `none`);
`files` is the listing of the data directory; `sheetOf f s` is the
contents of sheet `s` of workbook `f`, or `none` when the workbook
cannot be opened or has no such sheet (the loader's `{}` paths). -/
structure Env where
  lastClose : Ticker → Option ℚ
  files : List FileName
  sheetOf : FileName → String → Option Sheet

/-- The per-session mutable state of `MainWindow` that the claims are
about.  `bucketPrices tk b` is `self.bucket_prices[tk].get(label_b)`
(absent key or stored `None` ↦ `none`); `exportedStates b` is
`self._exported_states.get(label_b)`; `prevClose` is the
`self.prev_close` cache; `prevSessionBucket` is
`self.prev_session_bucket`; `lastTimerKey` is `self._last_timer_key`. -/
structure SessionState where
  sessionDate : PDate
  prevClose : Ticker → Option ℚ
  prevSessionBucket : Ticker → Option ℚ
  bucketPrices : Ticker → Nat → Option ℚ
  exportedStates : Nat → Option (List (Option ℚ))
  lastTimerKey : Option (Nat × Nat)

/-- `MainWindow._ensure_prev_close`: return the cached previous close
when present and not `None`, else fall back to `last_close(tk)` (the
source also writes the fetched value back into the cache; the returned
value, which is all the callers below use, is unaffected). -/
def ensurePrevClose (lc : Ticker → Option ℚ) (st : SessionState) (tk : Ticker) :
    Option ℚ :=
  match st.prevClose tk with
  | some v => some v
  | none => lc tk

/-- Descending scan `for prev_idx in range(idx - 1, -1, -1)` of
`MainWindow._base_for`: the first bucket index strictly below `n`,
scanned downward, holding a numeric captured price. -/
def findDesc (f : Nat → Option ℚ) : Nat → Option ℚ
  | 0 => none
  | n + 1 =>
    match f n with
    | some v => some v
    | none => findDesc f n

/-- `MainWindow._base_for(tk, label)` with `idx = LABEL_TO_INDEX[label]`:
bucket 0 uses the previous-session value when numeric, else the
previous-close fallback; a later bucket takes the nearest earlier bucket
with a numeric captured price, else the previous-close fallback. -/
def baseFor (lc : Ticker → Option ℚ) (st : SessionState) (tk : Ticker)
    (idx : Nat) : Option ℚ :=
  if idx = 0 then
    match st.prevSessionBucket tk with
    | some v => some v
    | none => ensurePrevClose lc st tk
  else
    match findDesc (st.bucketPrices tk) idx with
    | some v => some v
    | none => ensurePrevClose lc st tk

/-- The percentage computation of `MainWindow._render_cell` (and,
identically, of `_export_excel_grid_and_bucket`): `pct` is set only when
both `price` and `base` are numbers and `base` is truthy (nonzero). -/
def renderPct (price base : Option ℚ) : Option ℚ :=
  match price, base with
  | some p, some b => if b ≠ 0 then some ((p / b - 1) * 100) else none
  | _, _ => none

/-- `MainWindow._snapshot_for_label`: the ticker-ordered tuple of the
bucket's captured prices, with non-numeric entries as `None`. -/
def snapshotForLabel (st : SessionState) (b : Nat) : List (Option ℚ) :=
  (List.finRange 32).map (fun tk => st.bucketPrices tk b)

/-- `MainWindow._maybe_export(label, force)`: export (and record the
snapshot) only when forced or the snapshot differs from the one recorded
at the last export of this bucket (`dict.get` gives `None` ≠ any tuple
on a first export).  The returned `Bool` reports whether the actual
write `_export_excel_grid_and_bucket` was performed. -/
def maybeExport (st : SessionState) (b : Nat) (force : Bool) :
    SessionState × Bool :=
  if force = true ∨ st.exportedStates b ≠ some (snapshotForLabel st b) then
    ({ st with exportedStates := fun b2 =>
        if b2 = b then some (snapshotForLabel st b) else st.exportedStates b2 },
     true)
  else
    (st, false)

/-- `MainWindow._bucket_index_now(hm)`: the source walks all buckets in
order, remembering the last index whose threshold is `<=` the current
`(hour, minute)` (Python tuple order), with `-1` as the "none yet"
sentinel that becomes `None`. -/
def bucketIndexNow (hm : Nat × Nat) : Option Nat :=
  let idx : Int :=
    BUCKETS.enum.foldl
      (fun idx ib => if hmGe hm ib.2.2 then (ib.1 : Int) else idx) (-1)
  if 0 ≤ idx then some idx.toNat else none

/-- One bucket's capture pass of `backfill_to_now`'s inner loop: for
every ticker, store the fetched price for bucket `b` in
`self.bucket_prices[tk][label_b]` (a non-numeric fetch result is stored
as `None`, which `Option ℚ` already encodes).  `fetch tk b` stands for
`price_at_or_before_bucket(tk, self.session_date, *BUCKETS[b][1])`. -/
def processBucketCaptures (fetch : Ticker → Nat → Option ℚ)
    (st : SessionState) (b : Nat) : SessionState :=
  { st with bucketPrices := fun tk b2 =>
      if b2 = b then fetch tk b else st.bucketPrices tk b2 }

/-- The `for tk in TICKERS: self._ensure_prev_close(tk)` warm-up loop of
`backfill_to_now`: fill every absent previous-close cache entry. -/
def ensureAllPrevClose (lc : Ticker → Option ℚ) (st : SessionState) :
    SessionState :=
  { st with prevClose := fun tk =>
      match st.prevClose tk with
      | some v => some v
      | none => lc tk }

/-! ### Workbook file names (`day_file_name`, `_WORKBOOK_RE`,
`_parse_workbook_date`) -/

/-- ASCII decimal digit test (the `\d` of the source's regexes; the
character repertoire of this embedding is ASCII plus the few glyphs the
source uses). -/
def isDigitChar (c : Char) : Bool := 48 ≤ c.toNat && c.toNat ≤ 57

/-- Digit value of an ASCII digit character. -/
def dVal (c : Char) : Nat := c.toNat - 48

/-- The decimal digit character for `n ≤ 9` (any other input never
arises at the call sites below, which feed single decimal digits). -/
def dChar (n : Nat) : Char :=
  match n with
  | 0 => '0' | 1 => '1' | 2 => '2' | 3 => '3' | 4 => '4'
  | 5 => '5' | 6 => '6' | 7 => '7' | 8 => '8' | 9 => '9'
  | _ => '?'

/-- `strftime` field `%m` / `%d`: zero-padded two-digit rendering (all
call sites have `n ≤ 99`). -/
def pad2 (n : Nat) : List Char := [dChar (n / 10), dChar (n % 10)]

/-- `strftime` field `%Y`: year with century, zero-padded to four digits
as documented for CPython (all call sites have `n ≤ 9999`). -/
def pad4 (n : Nat) : List Char :=
  [dChar (n / 1000), dChar (n / 100 % 10), dChar (n / 10 % 10), dChar (n % 10)]

/-- `day_file_name(dt)`: `f"Sheet__{dt.strftime('%m_%d_%Y')}.xlsx"`,
depending only on the calendar date of `dt`. -/
def dayFileName (d : PDate) : List Char :=
  "Sheet__".data ++ pad2 d.2.1 ++ '_' :: pad2 d.2.2 ++ '_' :: pad4 d.1
    ++ ".xlsx".data

/-- Strip a literal pattern from the front of a string, ignoring ASCII
case (the `re.IGNORECASE` flag of `_WORKBOOK_RE`). -/
def stripCI : List Char → List Char → Option (List Char)
  | [], s => some s
  | _ :: _, [] => none
  | p :: ps, c :: cs => if c.toLower = p.toLower then stripCI ps cs else none

/-- `_WORKBOOK_RE.match(name)` for the anchored pattern
`Sheet__(\d{2})_(\d{2})_(\d{4})\.xlsx$` with `re.IGNORECASE`: the three
digit groups converted by `int`, as `(month, day, year)`.  `re.match`
anchors at the start; `$` accepts the end of the string or a single
trailing newline.  The fixed-width digit groups leave the match
deterministic. -/
def wbMatch (name : List Char) : Option (Nat × Nat × Nat) :=
  match stripCI "Sheet__".data name with
  | none => none
  | some r1 =>
    match r1 with
    | a :: b :: c :: d :: e :: f :: g :: h :: i :: j :: rest =>
      if isDigitChar a && isDigitChar b && c = '_'
          && isDigitChar d && isDigitChar e && f = '_'
          && isDigitChar g && isDigitChar h && isDigitChar i && isDigitChar j then
        match stripCI ".xlsx".data rest with
        | none => none
        | some tail =>
          if tail = [] || tail = ['\n'] then
            some (dVal a * 10 + dVal b, dVal d * 10 + dVal e,
                  ((dVal g * 10 + dVal h) * 10 + dVal i) * 10 + dVal j)
          else none
      else none
    | _ => none

/-- Gregorian leap-year rule used by `datetime.date`. -/
def isLeapYear (y : Nat) : Bool := y % 4 = 0 && (y % 100 ≠ 0 || y % 400 = 0)

/-- Days in a month, as `datetime.date` validates them. -/
def daysInMonth (y m : Nat) : Nat :=
  if m = 2 then (if isLeapYear y then 29 else 28)
  else if m = 4 || m = 6 || m = 9 || m = 11 then 30
  else 31

/-- Validity check of the `date(year, month, day)` constructor
(`ValueError` outside these bounds). -/
def isValidDate (y m d : Nat) : Bool :=
  1 ≤ y && y ≤ 9999 && 1 ≤ m && m ≤ 12 && 1 ≤ d && d ≤ daysInMonth y m

/-- `_parse_workbook_date(path)`: regex match, `int` the groups, build
`date(year, month, day)`, `None` on no match or `ValueError`. -/
def parseWorkbookDate (name : FileName) : Option PDate :=
  match wbMatch name with
  | none => none
  | some (mo, dy, yr) =>
    if isValidDate yr mo dy then some (yr, mo, dy) else none

/-! ### Prior-workbook scan and bucket-sheet loading
(`_latest_workbook_before`, `_load_bucket_from_workbook`,
`prior_session_bucket`, `safe_sheet_name`) -/

/-- The `data_dir.glob("Sheet__*.xlsx")` filter (POSIX glob, case
sensitive): the name starts with `Sheet__` and ends with `.xlsx`. -/
def globMatch (f : FileName) : Bool :=
  "Sheet__".data.isPrefixOf f && ".xlsx".data.isSuffixOf f

/-- One iteration of the `_latest_workbook_before` loop: skip
unparseable names and dates at or after `day`; otherwise keep the
strictly greater date (`if best is None or dt > best[0]`). -/
def scanStep (day : PDate) (best : Option (PDate × FileName)) (f : FileName) :
    Option (PDate × FileName) :=
  match parseWorkbookDate f with
  | none => best
  | some dt =>
    if dateLt dt day then
      match best with
      | none => some (dt, f)
      | some b => if dateLt b.1 dt then some (dt, f) else best
    else best

/-- `_latest_workbook_before(session_day, data_dir)`: among the glob
matches whose parsed date is strictly before `day`, keep the file with
the greatest date (first seen wins ties). -/
def latestWorkbookBefore (day : PDate) (files : List FileName) :
    Option FileName :=
  ((files.filter globMatch).foldl (scanStep day) none).map Prod.snd

/-- Python whitespace stripped by `str.strip()` (ASCII repertoire). -/
def isPyWs (c : Char) : Bool :=
  c = ' ' || c = '\t' || c = '\n' || c = '\x0d' || c = '\x0b' || c = '\x0c'

/-- Strip characters satisfying `p` from both ends of a string. -/
def stripEnds (p : Char → Bool) (s : List Char) : List Char :=
  ((s.dropWhile p).reverse.dropWhile p).reverse

/-- Character substitution of `safe_sheet_name`. -/
def safeSheetChar (c : Char) : Char :=
  if c = ':' then ' '
  else if c = '\\' || c = '/' || c = '?' || c = '*' then '_'
  else if c = '[' then '('
  else if c = ']' then ')'
  else c

/-- `safe_sheet_name(label)`: substitute unsafe characters, strip, use
`"Capture"` when empty, truncate to 31 characters. -/
def safeSheetName (label : String) : String :=
  let s := stripEnds isPyWs (label.data.map safeSheetChar)
  let s := if s.isEmpty then "Capture".data else s
  String.mk (s.take 31)

/-- Name of ticker `tk` (its entry in `TICKERS`). -/
def tickerName (tk : Ticker) : String := TICKERS.get ⟨tk.val, tk.isLt⟩

/-- Encode an `Optional[float]` as the cell pandas writes for it: a
number, or an empty cell for `None`. -/
def optCell (v : Option ℚ) : Cell :=
  match v with
  | some q => Cell.num q
  | none => Cell.empty

/-- The per-bucket sheet that `_export_excel_grid_and_bucket` writes for
bucket `b`: `df_bucket.to_excel` places the header in row 1, the row
label `f"{i+1}. {t}"` in column 1, the `price` column in column 2 and
the `pct` column in column 3, one row per ticker starting at row 2.
Prices come from `self.bucket_prices`, percentages from the same
price/baseline formula as the UI cells. -/
def bucketSheetFor (lc : Ticker → Option ℚ) (st : SessionState) (b : Nat) :
    Sheet := fun r c =>
  if h : 2 ≤ r ∧ r < 34 then
    let tk : Ticker := ⟨r - 2, by omega⟩
    if c = 1 then Cell.strC (Nat.repr (tk.val + 1) ++ ". " ++ tickerName tk)
    else if c = 2 then optCell (st.bucketPrices tk b)
    else if c = 3 then optCell (renderPct (st.bucketPrices tk b) (baseFor lc st tk b))
    else Cell.empty
  else if r = 1 then
    (if c = 2 then Cell.strC "price" else if c = 3 then Cell.strC "pct" else Cell.empty)
  else Cell.empty

/-- The reading loop of `_load_bucket_from_workbook`: for each ticker
`i` read the cell at row `i + 2`, column 2, keeping numbers and mapping
everything else to `None`. -/
def loadBucketSheet (sheet : Sheet) : Ticker → Option ℚ := fun tk =>
  match sheet (tk.val + 2) 2 with
  | Cell.num q => some q
  | _ => none

/-- `_load_bucket_from_workbook(path, bucket_label)`: open the sheet
named `safe_sheet_name(bucket_label)`; a missing sheet or any exception
yields the empty dict (every ticker absent).  The `_PRIOR_BUCKET_CACHE`
is cleared before every use relevant to the claims
(`clear_prior_bucket_cache` in `_reset_for_new_session`), so the model
reads through. -/
def loadBucketFromWorkbook (env : Env) (path : FileName) (label : String) :
    Ticker → Option ℚ :=
  match env.sheetOf path (safeSheetName label) with
  | none => fun _ => none
  | some sheet => loadBucketSheet sheet

/-- `prior_session_bucket(session_day)` with its default
`bucket_label="4:00 PM"`: load that bucket from the most recent prior
workbook, or the empty dict when none exists. -/
def priorSessionBucket (env : Env) (day : PDate) : Ticker → Option ℚ :=
  match latestWorkbookBefore day env.files with
  | none => fun _ => none
  | some p => loadBucketFromWorkbook env p "4:00 PM"

/-! ### Session rollover and backfill (`_reset_for_new_session`,
`_ensure_session`, `backfill_to_now`) -/

/-- `MainWindow._reset_for_new_session(new_date)`: fresh session state
for the given date — empty previous-close cache, previous-session
baseline reloaded from disk, empty capture maps, no export snapshots,
no last-processed-minute key (the UI table blanking is presentation
only). -/
def resetForNewSession (env : Env) (d : PDate) : SessionState :=
  { sessionDate := d
    prevClose := fun _ => none
    prevSessionBucket := priorSessionBucket env d
    bucketPrices := fun _ _ => none
    exportedStates := fun _ => none
    lastTimerKey := none }

/-- `MainWindow._ensure_session(current_date)`: reset exactly when the
observed date differs from the session's date. -/
def ensureSession (env : Env) (st : SessionState) (target : PDate) :
    SessionState :=
  if target ≠ st.sessionDate then resetForNewSession env target else st

/-- The `self._post_capture_hooks(label, pct_map, capture_dt)` call
ending every bucket iteration of `backfill_to_now` (line 1861):
`MainWindow` never defines this method — the only
`_post_capture_hooks` in the file (line 251) is dead code nested
inside the body of `_parse_workbook_date`, every path of which returns
before reaching it — so the attribute lookup raises `AttributeError`
on every call.  `true` means "this call raises". -/
def postCaptureHooksRaises : Bool := true

/-- One iteration of `backfill_to_now`'s bucket loop: capture every
ticker for bucket `b`, run `self._maybe_export(label_b)`, then call
`self._post_capture_hooks(...)`.  The returned flag reports whether
the iteration raised; the list component records the buckets whose
iterations ran, in order. -/
def backfillStep (fetch : Ticker → Nat → Option ℚ)
    (acc : SessionState × List Nat) (b : Nat) :
    (SessionState × List Nat) × Bool :=
  let stc := processBucketCaptures fetch acc.1 b
  let st2 := (maybeExport stc b false).1
  ((st2, acc.2 ++ [b]), postCaptureHooksRaises)

/-- Run loop iterations in order, stopping at the first one that
raises; the in-memory mutations already made are kept (the exception
propagates out of the `for` loop to the enclosing handler, with no
rollback). -/
def runLoop
    (step : (SessionState × List Nat) → Nat →
      ((SessionState × List Nat) × Bool)) :
    List Nat → (SessionState × List Nat) → SessionState × List Nat
  | [], acc => acc
  | b :: bs, acc =>
    let r := step acc b
    if r.2 then r.1 else runLoop step bs r.1

/-- `MainWindow.backfill_to_now()`: ensure the session matches today,
compute the current bucket index (return unchanged when before the
first threshold), warm the previous-close cache, then run the bucket
loop over `0..idx_now`.  Each iteration ends with the
`_post_capture_hooks` call, which raises `AttributeError` (see
`postCaptureHooksRaises`); the function-level `except Exception` (line
1866) swallows it, keeping the state mutated so far and skipping the
remaining buckets and the status-bar message.  The returned list
records the bucket iterations that ran.  `fetch tk b` abstracts
`price_at_or_before_bucket(tk, session_date, *BUCKETS[b][1])`. -/
def backfillToNow (env : Env) (fetch : Ticker → Nat → Option ℚ)
    (st : SessionState) (today : PDate) (hm : Nat × Nat) :
    SessionState × List Nat :=
  let st0 := ensureSession env st today
  match bucketIndexNow hm with
  | none => (st0, [])
  | some idx =>
    let st1 := ensureAllPrevClose env.lastClose st0
    runLoop (backfillStep fetch) (List.range (idx + 1)) (st1, [])

/-! ### Price source adapter (`series_for_day_1m`,
`price_at_or_before_bucket`, `last_close`) -/

/-- A Python float as returned by the pandas layer: a finite value
(modelled as a rational) or IEEE NaN. -/
inductive PFloat
  | num (q : ℚ)
  | nan
deriving DecidableEq

/-- Fetch-layer environment.  `minuteSeries tk` is the result of
`series_for_day_1m(tk)`: `none` on any fetch failure, otherwise the
day's 1-minute close series — index timestamps as minutes of the day,
ascending (yfinance order), values NaN-free (the source applies
`.dropna()`).  `lastClose tk` is `last_close(tk)`. -/
structure FetchEnv where
  minuteSeries : Ticker → Option (List (Nat × ℚ))
  lastClose : Ticker → Option ℚ

/-- `pandas.Series.asof(where)` on a sorted NaN-free series: the value
at the last index entry `≤ where`, or NaN when every entry is after
`where`.  It returns a scalar, never Python `None`, and does not raise
on a sorted index. -/
def asofS (s : List (Nat × ℚ)) (t : Nat) : PFloat :=
  match (s.filter (fun p => p.1 ≤ t)).getLast? with
  | some p => PFloat.num p.2
  | none => PFloat.nan

/-- `price_at_or_before_bucket(tk, session_day, h, m)`.  The branch
structure mirrors the source: absent series → `last_close`; empty
series → `last_close`; otherwise `v = s.asof(bkt)` followed by
`if v is None and len(s) > 0` (a fallback via `s.loc[:bkt]`, dead
because `asof` never returns `None`) and `float(v) if v is not None
else last_close(tk)` — so the `asof` result, NaN included, is returned
as a float. -/
def priceAtOrBeforeBucket (fe : FetchEnv) (tk : Ticker) (_day : PDate)
    (h m : Nat) : Option PFloat :=
  match fe.minuteSeries tk with
  | none => (fe.lastClose tk).map PFloat.num
  | some s =>
    if s.isEmpty then (fe.lastClose tk).map PFloat.num
    else
      let v : Option PFloat := some (asofS s (h * 60 + m))
      match v with
      | none =>
        match (s.filter (fun p => p.1 ≤ h * 60 + m)).getLast? with
        | some p => some (PFloat.num p.2)
        | none => (fe.lastClose tk).map PFloat.num
      | some w => some w

/-! ### Feature flags (`FEATURE_ITEMS`, `MainWindow._load_features`) -/

/-- The twelve feature labels of `FEATURE_ITEMS`, in source order. -/
def FEATURE_NAMES : List String :=
  ["Mini \"Dow Dashboard\" Pulse",
   "Auto News Ping for Movers",
   "Chart Sparkline View",
   "Session Insight Rail",
   "Replay Mode",
   "Morning Resume Summary",
   "Historical Echo Mode",
   "Dow \"Concentration\" Meter",
   "Custom Market Sounds",
   "Candle Ghosts",
   "Daily Confidence Meter",
   "\"Dow DNA\" Export"]

/-- The defaults dict of `_load_features`: every feature `False` except
`FEATURE_INSIGHT_RAIL` (`"Session Insight Rail"`), which is `True`. -/
def FEATURE_DEFAULTS : List (String × Bool) :=
  FEATURE_NAMES.map (fun n => (n, n = "Session Insight Rail"))

/-- Python dict lookup on an insertion-ordered association list. -/
def dictGet : List (String × Bool) → String → Option Bool
  | [], _ => none
  | (k, v) :: t, q => if q = k then some v else dictGet t q

/-- The dict-merging core of `_load_features` once a JSON object has
been read: `for key, default in defaults.items(): if key not in loaded:
loaded[key] = default; return loaded` — each known feature name missing
from the input is appended with its default; nothing is removed.
(JSON values are modelled as booleans; the source does not inspect
them.) -/
def featMergeStep (acc : List (String × Bool)) (kd : String × Bool) :
    List (String × Bool) :=
  if (dictGet acc kd.1).isSome then acc else acc ++ [kd]

def loadFeatures (loaded : List (String × Bool)) : List (String × Bool) :=
  FEATURE_DEFAULTS.foldl featMergeStep loaded

/-! ### Cell-text parsing and export colors (`parse_price_pct`,
`MainWindow._excel_color_for`) -/

/-- Decimal value of a digit run (what `float`/`int` compute on it). -/
def natValDigits (ds : List Char) : Nat :=
  ds.foldl (fun a c => a * 10 + dVal c) 0

/-- Try the price pattern `[-+]?\d+(?:\.\d+)?` anchored at the head of
`cs`, returning the matched value: optional sign, a maximal nonempty
digit run, then optionally a dot followed by a maximal nonempty digit
run.  (`\d+` is greedy and a digit run followed by a non-digit cannot
backtrack usefully, so this is the regex's behaviour.) -/
def matchNumAt (cs : List Char) : Option ℚ :=
  let sr : ℚ × List Char :=
    match cs with
    | c :: t => if c = '-' then (-1, t) else if c = '+' then (1, t) else (1, cs)
    | [] => (1, cs)
  let ds := sr.2.takeWhile isDigitChar
  let rest2 := sr.2.dropWhile isDigitChar
  if ds.isEmpty then none
  else
    match rest2 with
    | c :: r3 =>
      if c = '.' then
        (let fs := r3.takeWhile isDigitChar
         if fs.isEmpty then some (sr.1 * natValDigits ds)
         else some (sr.1 * ((natValDigits ds : ℚ) + (natValDigits fs : ℚ) / (10 ^ fs.length))))
      else some (sr.1 * natValDigits ds)
    | [] => some (sr.1 * natValDigits ds)

/-- `_price_re.search`: leftmost position where the price pattern
matches. -/
def searchNum : List Char → Option ℚ
  | [] => none
  | c :: cs =>
    match matchNumAt (c :: cs) with
    | some v => some v
    | none => searchNum cs

/-- The body of the percent pattern `\(([+-]?\d+(?:\.\d+)?)%` after an
opening parenthesis: sign, digits, optional fraction, then a literal
`%`.  When the optional fraction is present but not followed by `%`,
the regex backtracks to the fraction-free alternative, which then fails
on the `.` — so the only successful shapes are digits directly followed
by `%`, or digits, dot, digits, `%`. -/
def matchPctBody (cs : List Char) : Option ℚ :=
  let sr : ℚ × List Char :=
    match cs with
    | c :: t => if c = '+' then (1, t) else if c = '-' then (-1, t) else (1, cs)
    | [] => (1, cs)
  let ds := sr.2.takeWhile isDigitChar
  let rest2 := sr.2.dropWhile isDigitChar
  if ds.isEmpty then none
  else
    match rest2 with
    | c :: r3 =>
      if c = '%' then some (sr.1 * natValDigits ds)
      else if c = '.' then
        (let fs := r3.takeWhile isDigitChar
         let r4 := r3.dropWhile isDigitChar
         if !fs.isEmpty && r4.head? = some '%' then
           some (sr.1 * ((natValDigits ds : ℚ) + (natValDigits fs : ℚ) / (10 ^ fs.length)))
         else none)
      else none
    | [] => none

/-- `_pct_re.search`: leftmost `(` whose following text matches the
percent body. -/
def searchPct : List Char → Option ℚ
  | [] => none
  | c :: cs =>
    if c = '(' then
      (match matchPctBody cs with
       | some v => some v
       | none => searchPct cs)
    else searchPct cs

/-- `parse_price_pct(cell_text)`: strip whitespace, strip leading arrow
decorations, replace non-breaking spaces, then search for the price and
the parenthesised percentage. -/
def parsePricePct (cellText : List Char) : Option ℚ × Option ℚ :=
  let s := stripEnds isPyWs cellText
  let s := s.dropWhile (fun c => c = '▲' || c = '▼' || c = '•' || c = ' ')
  let s := s.map (fun c => if c = '\xa0' then ' ' else c)
  (searchNum s, searchPct s)

/-- `MainWindow._excel_color_for(pct)`: green for a positive number, red
for a negative number, neutral grey otherwise (non-numbers included). -/
def excelColorFor (pct : Option ℚ) : String :=
  match pct with
  | some q => if 0 < q then "22C55E" else if q < 0 then "F87171" else "94A3B8"
  | none => "94A3B8"

/-- The grid-sheet coloring step of `_export_excel_grid_and_bucket`:
for a free-text cell, parse the percentage back out of the display text
and color by it. -/
def gridFillColor (cellText : List Char) : String :=
  excelColorFor (parsePricePct cellText).2

/-- The bucket-sheet coloring step of `_export_excel_grid_and_bucket`:
the numeric `pct` column value (a number or an empty cell, hence
`Option ℚ` after the source's `float(pval)` guard) colors the row. -/
def bucketFillColor (pval : Option ℚ) : String :=
  excelColorFor pval

/-- Sign of an optional percentage (specification-side helper): `1`
for positive, `-1` for negative, `0` for zero or absent. -/
def pctSign (p : Option ℚ) : Int :=
  match p with
  | none => 0
  | some q => if 0 < q then 1 else if q < 0 then -1 else 0

/-- Invariant of the `_latest_workbook_before` scan (specification-side
helper): after processing `seen`, an empty accumulator means no seen
file parses to a date before `day`; a non-empty one holds a seen file,
its parsed date, which is before `day`, and no seen file's
before-`day` date is strictly greater. -/
def ScanInv (day : PDate) (seen : List FileName)
    (acc : Option (PDate × FileName)) : Prop :=
  match acc with
  | none =>
    ∀ f ∈ seen, ∀ dt, parseWorkbookDate f = some dt → ¬ dateLt dt day = true
  | some bf =>
    bf.2 ∈ seen ∧ parseWorkbookDate bf.2 = some bf.1 ∧
      dateLt bf.1 day = true ∧
      ∀ f ∈ seen, ∀ dt, parseWorkbookDate f = some dt →
        dateLt dt day = true → dateLt bf.1 dt = false

/-! ### Concrete instances used by the witness theorems -/

/-- The first ticker (`"AAPL"`). -/
def tk0 : Ticker := ⟨0, by omega⟩

/-- A fresh, empty session state. -/
def emptyState : SessionState :=
  { sessionDate := (2026, 10, 12)
    prevClose := fun _ => none
    prevSessionBucket := fun _ => none
    bucketPrices := fun _ _ => none
    exportedStates := fun _ => none
    lastTimerKey := none }

/-- A deterministic last-close source. -/
def lcSample : Ticker → Option ℚ := fun _ => some 7

/-- Session with a previous-session baseline and one captured bucket. -/
def c1State : SessionState :=
  { emptyState with
    prevSessionBucket := fun _ => some 10
    bucketPrices := fun _ b => if b = 1 then some 50 else none }

/-- A fetch function for the backfill witness. -/
def c2Fetch : Ticker → Nat → Option ℚ := fun _ b => some ((b : ℚ) + 1)

/-- An environment with no usable workbooks. -/
def envSample : Env :=
  { lastClose := lcSample
    files := []
    sheetOf := fun _ _ => none }

/-- Session whose bucket 0 already has a recorded export snapshot that
differs from the (all-absent) current snapshot. -/
def c4State : SessionState :=
  { emptyState with
    exportedStates := fun b =>
      if b = 0 then some (List.replicate 32 (some 1)) else none }

/-- A stale session (old date, captured data) awaiting rollover. -/
def c5State : SessionState :=
  { emptyState with
    sessionDate := (2026, 10, 10)
    bucketPrices := fun _ _ => some 1 }

/-- An environment with two parseable workbooks and one stray file. -/
def c5Env : Env :=
  { lastClose := lcSample
    files := ["Sheet__10_10_2026.xlsx".data, "Sheet__10_08_2026.xlsx".data,
              "notes.txt".data]
    sheetOf := fun f s =>
      if f = "Sheet__10_10_2026.xlsx".data ∧ s = "4 00 PM" then
        some (fun r c => if 2 ≤ r ∧ r < 34 ∧ c = 2 then Cell.num 11 else Cell.empty)
      else none }

/-- Minute series whose first bar (10:00) is after the 9:31 bucket. -/
def c6Fetch : FetchEnv :=
  { minuteSeries := fun _ => some [(600, 100)]
    lastClose := fun _ => some 50 }

/-- Empty minute series. -/
def c6FetchEmpty : FetchEnv :=
  { minuteSeries := fun _ => some []
    lastClose := fun _ => some 50 }

/-- Absent minute series (fetch failure). -/
def c6FetchAbsent : FetchEnv :=
  { minuteSeries := fun _ => none
    lastClose := fun _ => some 50 }

/-- Session with bucket 7 (4:00 PM) captured for every ticker. -/
def c7State : SessionState :=
  { emptyState with bucketPrices := fun _ b => if b = 7 then some 42 else none }

/-- Environment whose single workbook holds exactly the bucket sheet
exported from `c7State`'s 4:00 PM bucket. -/
def c7Env : Env :=
  { lastClose := fun _ => none
    files := ["Sheet__10_11_2026.xlsx".data]
    sheetOf := fun _ _ => some (bucketSheetFor (fun _ => none) c7State 7) }

/-! ## Helper lemmas -/

lemma maybeExport_fst_bucketPrices (st : SessionState) (b : Nat) (f : Bool) :
    ((maybeExport st b f).1).bucketPrices = st.bucketPrices := by
  unfold maybeExport
  split <;> rfl

lemma snapshotForLabel_maybeExport (st : SessionState) (b : Nat) (f : Bool)
    (b2 : Nat) :
    snapshotForLabel ((maybeExport st b f).1) b2 = snapshotForLabel st b2 := by
  unfold snapshotForLabel
  rw [maybeExport_fst_bucketPrices]

lemma maybeExport_skip (st : SessionState) (b : Nat)
    (h : st.exportedStates b = some (snapshotForLabel st b)) :
    maybeExport st b false = (st, false) := by
  unfold maybeExport
  rw [if_neg]
  intro hc
  rcases hc with hc | hc
  · exact Bool.false_ne_true hc
  · exact hc h

lemma maybeExport_write (st : SessionState) (b : Nat)
    (h : st.exportedStates b ≠ some (snapshotForLabel st b)) :
    maybeExport st b false =
      ({ st with exportedStates := fun b2 =>
          if b2 = b then some (snapshotForLabel st b) else st.exportedStates b2 },
       true) := by
  unfold maybeExport
  rw [if_pos (Or.inr h)]

lemma maybeExport_exported_self (st : SessionState) (b : Nat) :
    ((maybeExport st b false).1).exportedStates b =
      some (snapshotForLabel st b) := by
  by_cases hc : st.exportedStates b = some (snapshotForLabel st b)
  · rw [maybeExport_skip st b hc]; exact hc
  · rw [maybeExport_write st b hc]; simp

lemma excelColorFor_eq_sign (p : Option ℚ) :
    excelColorFor p =
      (if pctSign p = 1 then "22C55E"
       else if pctSign p = -1 then "F87171" else "94A3B8") := by
  cases p <;> simp only [excelColorFor, pctSign] <;> split_ifs <;>
    first | rfl | contradiction

lemma ensurePrevClose_coherent (lc : Ticker → Option ℚ) (st : SessionState)
    (tk : Ticker) (h : st.prevClose tk = none ∨ st.prevClose tk = lc tk) :
    ensurePrevClose lc st tk = lc tk := by
  unfold ensurePrevClose
  rcases h with h | h
  · rw [h]
  · rw [h]
    cases hl : lc tk <;> rfl

lemma findDesc_eq_some (f : Nat → Option ℚ) (j : Nat) (v : ℚ) :
    ∀ n, j < n → f j = some v → (∀ k, j < k → k < n → f k = none) →
      findDesc f n = some v := by
  intro n
  induction n with
  | zero => intro h _ _; omega
  | succ m ih =>
    intro hj hf hk
    rcases Nat.lt_succ_iff_lt_or_eq.mp hj with hlt | heq
    · have hm : f m = none := hk m hlt (Nat.lt_succ_self m)
      simp only [findDesc, hm]
      exact ih hlt hf (fun k h1 h2 => hk k h1 (Nat.lt_succ_of_lt h2))
    · subst heq
      simp [findDesc, hf]

lemma findDesc_eq_none (f : Nat → Option ℚ) :
    ∀ n, (∀ j, j < n → f j = none) → findDesc f n = none := by
  intro n
  induction n with
  | zero => intro _; rfl
  | succ m ih =>
    intro h
    have hm : f m = none := h m (Nat.lt_succ_self m)
    simp only [findDesc, hm]
    exact ih (fun j hj => h j (Nat.lt_succ_of_lt hj))

lemma dictGet_append_some (l1 l2 : List (String × Bool)) (k : String)
    (h : (dictGet l1 k).isSome) : dictGet (l1 ++ l2) k = dictGet l1 k := by
  induction l1 with
  | nil => simp [dictGet] at h
  | cons a t ih =>
    obtain ⟨ka, va⟩ := a
    by_cases hk : k = ka
    · simp [dictGet, hk]
    · simp only [dictGet, if_neg hk] at h ⊢
      exact ih h

lemma dictGet_append_none (l1 l2 : List (String × Bool)) (k : String)
    (h : dictGet l1 k = none) : dictGet (l1 ++ l2) k = dictGet l2 k := by
  induction l1 with
  | nil => rfl
  | cons a t ih =>
    obtain ⟨ka, va⟩ := a
    by_cases hk : k = ka
    · simp [dictGet, hk] at h
    · simp only [dictGet, if_neg hk] at h ⊢
      exact ih h

lemma foldl_featMerge_isSome :
    ∀ (L : List (String × Bool)) (acc : List (String × Bool)) (k : String),
      (dictGet acc k).isSome →
      dictGet (L.foldl featMergeStep acc) k = dictGet acc k := by
  intro L
  induction L with
  | nil => intro acc k _; rfl
  | cons kd t ih =>
    intro acc k h
    simp only [List.foldl_cons]
    by_cases hs : (dictGet acc kd.1).isSome
    · rw [show featMergeStep acc kd = acc from by simp [featMergeStep, hs]]
      exact ih acc k h
    · rw [show featMergeStep acc kd = acc ++ [kd] from by simp [featMergeStep, hs]]
      rw [ih (acc ++ [kd]) k (by rw [dictGet_append_some _ _ _ h]; exact h)]
      exact dictGet_append_some _ _ _ h

lemma foldl_featMerge_mem :
    ∀ (L : List (String × Bool)) (acc : List (String × Bool)) (k : String)
      (v : Bool), (k, v) ∈ L.foldl featMergeStep acc →
      (k, v) ∈ acc ∨ (k, v) ∈ L := by
  intro L
  induction L with
  | nil => intro acc k v h; exact Or.inl h
  | cons kd t ih =>
    intro acc k v h
    simp only [List.foldl_cons] at h
    by_cases hs : (dictGet acc kd.1).isSome
    · rw [show featMergeStep acc kd = acc from by simp [featMergeStep, hs]] at h
      rcases ih acc k v h with h1 | h1
      · exact Or.inl h1
      · exact Or.inr (List.mem_cons_of_mem _ h1)
    · rw [show featMergeStep acc kd = acc ++ [kd] from by
        simp [featMergeStep, hs]] at h
      rcases ih _ k v h with h1 | h1
      · rcases List.mem_append.mp h1 with h2 | h2
        · exact Or.inl h2
        · simp only [List.mem_singleton] at h2
          exact Or.inr (by rw [h2]; exact List.mem_cons_self _ _)
      · exact Or.inr (List.mem_cons_of_mem _ h1)

lemma foldl_featMerge_new :
    ∀ (L : List (String × Bool)) (acc : List (String × Bool)) (k : String)
      (d : Bool), (L.map Prod.fst).Nodup → (k, d) ∈ L → dictGet acc k = none →
      dictGet (L.foldl featMergeStep acc) k = some d := by
  intro L
  induction L with
  | nil => intro acc k d _ h _; simp at h
  | cons kd t ih =>
    intro acc k d hnd hmem hnone
    simp only [List.map_cons, List.nodup_cons] at hnd
    simp only [List.foldl_cons]
    rcases List.mem_cons.mp hmem with heq | hmem2
    · have hk1 : kd.1 = k := by rw [← heq]
      have hs : ¬ (dictGet acc kd.1).isSome := by
        rw [hk1, hnone]; simp
      rw [show featMergeStep acc kd = acc ++ [kd] from by simp [featMergeStep, hs]]
      have hget : dictGet (acc ++ [kd]) k = some d := by
        rw [dictGet_append_none _ _ _ hnone, ← heq]
        simp [dictGet]
      rw [foldl_featMerge_isSome t _ k (by rw [hget]; rfl)]
      exact hget
    · have hkne : k ≠ kd.1 := by
        intro he
        exact hnd.1 (he ▸ List.mem_map.mpr ⟨(k, d), hmem2, rfl⟩)
      by_cases hs : (dictGet acc kd.1).isSome
      · rw [show featMergeStep acc kd = acc from by simp [featMergeStep, hs]]
        exact ih acc k d hnd.2 hmem2 hnone
      · rw [show featMergeStep acc kd = acc ++ [kd] from by
          simp [featMergeStep, hs]]
        refine ih _ k d hnd.2 hmem2 ?_
        rw [dictGet_append_none _ _ _ hnone]
        simp [dictGet, hkne]

lemma feature_names_nodup : (FEATURE_DEFAULTS.map Prod.fst).Nodup := by decide

lemma backfill_first_iteration (fetch : Ticker → Nat → Option ℚ)
    (env : Env) (st : SessionState) (today : PDate) (hm : Nat × Nat)
    (idx : Nat) (hidx : bucketIndexNow hm = some idx) :
    backfillToNow env fetch st today hm =
      ((maybeExport
          (processBucketCaptures fetch
            (ensureAllPrevClose env.lastClose (ensureSession env st today)) 0)
          0 false).1,
       [0]) := by
  unfold backfillToNow
  rw [hidx]
  dsimp only
  rw [List.range_succ_eq_map]
  unfold runLoop backfillStep postCaptureHooksRaises
  simp

lemma stripCI_self : ∀ (p s : List Char), stripCI p (p ++ s) = some s := by
  intro p
  induction p with
  | nil => intro s; rfl
  | cons c t ih =>
    intro s
    simp only [List.cons_append, stripCI, if_pos rfl]
    exact ih s

lemma isDigitChar_dChar (k : Nat) (h : k ≤ 9) : isDigitChar (dChar k) = true := by
  interval_cases k <;> decide

lemma dVal_dChar (k : Nat) (h : k ≤ 9) : dVal (dChar k) = k := by
  interval_cases k <;> decide

lemma wbMatch_dayFileName (y m d : Nat) (hy : y ≤ 9999) (hm : m ≤ 99)
    (hd : d ≤ 99) : wbMatch (dayFileName (y, m, d)) = some (m, d, y) := by
  have h1 : isDigitChar (dChar (m / 10)) = true := isDigitChar_dChar _ (by omega)
  have h2 : isDigitChar (dChar (m % 10)) = true := isDigitChar_dChar _ (by omega)
  have h3 : isDigitChar (dChar (d / 10)) = true := isDigitChar_dChar _ (by omega)
  have h4 : isDigitChar (dChar (d % 10)) = true := isDigitChar_dChar _ (by omega)
  have h5 : isDigitChar (dChar (y / 1000)) = true := isDigitChar_dChar _ (by omega)
  have h6 : isDigitChar (dChar (y / 100 % 10)) = true := isDigitChar_dChar _ (by omega)
  have h7 : isDigitChar (dChar (y / 10 % 10)) = true := isDigitChar_dChar _ (by omega)
  have h8 : isDigitChar (dChar (y % 10)) = true := isDigitChar_dChar _ (by omega)
  have hx : stripCI ".xlsx".data ".xlsx".data = some [] := by
    have := stripCI_self ".xlsx".data []
    rwa [List.append_nil] at this
  simp only [dayFileName, List.append_assoc]
  unfold wbMatch
  rw [stripCI_self]
  simp only [pad2, pad4, List.cons_append, List.nil_append]
  simp only [h1, h2, h3, h4, h5, h6, h7, h8, hx]
  simp only [decide_True, Bool.and_self, Bool.and_true, Bool.true_and,
    if_true, decide_eq_true_eq]
  have e1 : dVal (dChar (m / 10)) = m / 10 := dVal_dChar _ (by omega)
  have e2 : dVal (dChar (m % 10)) = m % 10 := dVal_dChar _ (by omega)
  have e3 : dVal (dChar (d / 10)) = d / 10 := dVal_dChar _ (by omega)
  have e4 : dVal (dChar (d % 10)) = d % 10 := dVal_dChar _ (by omega)
  have e5 : dVal (dChar (y / 1000)) = y / 1000 := dVal_dChar _ (by omega)
  have e6 : dVal (dChar (y / 100 % 10)) = y / 100 % 10 := dVal_dChar _ (by omega)
  have e7 : dVal (dChar (y / 10 % 10)) = y / 10 % 10 := dVal_dChar _ (by omega)
  have e8 : dVal (dChar (y % 10)) = y % 10 := dVal_dChar _ (by omega)
  simp [e1, e2, e3, e4, e5, e6, e7, e8, Prod.mk.injEq]
  all_goals omega

lemma daysInMonth_le_31 (y m : Nat) : daysInMonth y m ≤ 31 := by
  unfold daysInMonth
  split_ifs <;> omega

lemma dateLt_trans (a b c : PDate) (h1 : dateLt a b = true)
    (h2 : dateLt b c = true) : dateLt a c = true := by
  simp only [dateLt, Bool.or_eq_true, Bool.and_eq_true, decide_eq_true_eq]
    at h1 h2 ⊢
  omega

lemma dateLt_irrefl (a : PDate) : dateLt a a = false := by
  simp [dateLt]

lemma scanStep_inv (day : PDate) (seen : List FileName)
    (acc : Option (PDate × FileName)) (f : FileName)
    (h : ScanInv day seen acc) :
    ScanInv day (seen ++ [f]) (scanStep day acc f) := by
  unfold scanStep
  cases hp : parseWorkbookDate f with
  | none =>
    cases acc with
    | none =>
      intro g hg dt hdt
      rcases List.mem_append.mp hg with hg | hg
      · exact h g hg dt hdt
      · rw [List.mem_singleton.mp hg, hp] at hdt
        cases hdt
    | some bf =>
      obtain ⟨hm, hpb, hlt, hmax⟩ := h
      refine ⟨List.mem_append_left _ hm, hpb, hlt, ?_⟩
      intro g hg dt hdt hdl
      rcases List.mem_append.mp hg with hg | hg
      · exact hmax g hg dt hdt hdl
      · rw [List.mem_singleton.mp hg, hp] at hdt
        cases hdt
  | some dt =>
    dsimp only
    by_cases hlt : dateLt dt day = true
    · rw [if_pos hlt]
      cases acc with
      | none =>
        refine ⟨List.mem_append_right _ (List.mem_singleton_self f), hp, hlt, ?_⟩
        intro g hg dt2 hdt2 hdl2
        rcases List.mem_append.mp hg with hg | hg
        · exact absurd hdl2 (h g hg dt2 hdt2)
        · rw [List.mem_singleton.mp hg, hp] at hdt2
          rw [← Option.some.inj hdt2]
          exact dateLt_irrefl dt
      | some bf =>
        obtain ⟨hm, hpb, hltb, hmax⟩ := h
        dsimp only
        by_cases hrep : dateLt bf.1 dt = true
        · rw [if_pos hrep]
          refine ⟨List.mem_append_right _ (List.mem_singleton_self f), hp, hlt, ?_⟩
          intro g hg dt2 hdt2 hdl2
          rcases List.mem_append.mp hg with hg | hg
          · have hold := hmax g hg dt2 hdt2 hdl2
            by_contra hdd
            rw [Bool.not_eq_false] at hdd
            rw [dateLt_trans bf.1 dt dt2 hrep hdd] at hold
            cases hold
          · rw [List.mem_singleton.mp hg, hp] at hdt2
            rw [← Option.some.inj hdt2]
            exact dateLt_irrefl dt
        · rw [if_neg hrep]
          refine ⟨List.mem_append_left _ hm, hpb, hltb, ?_⟩
          intro g hg dt2 hdt2 hdl2
          rcases List.mem_append.mp hg with hg | hg
          · exact hmax g hg dt2 hdt2 hdl2
          · rw [List.mem_singleton.mp hg, hp] at hdt2
            rw [← Option.some.inj hdt2]
            exact Bool.not_eq_true _ ▸ hrep
    · rw [if_neg hlt]
      cases acc with
      | none =>
        intro g hg dt2 hdt2
        rcases List.mem_append.mp hg with hg | hg
        · exact h g hg dt2 hdt2
        · rw [List.mem_singleton.mp hg, hp] at hdt2
          rw [← Option.some.inj hdt2]
          exact hlt
      | some bf =>
        obtain ⟨hm, hpb, hltb, hmax⟩ := h
        refine ⟨List.mem_append_left _ hm, hpb, hltb, ?_⟩
        intro g hg dt2 hdt2 hdl2
        rcases List.mem_append.mp hg with hg | hg
        · exact hmax g hg dt2 hdt2 hdl2
        · rw [List.mem_singleton.mp hg, hp] at hdt2
          rw [← Option.some.inj hdt2] at hdl2
          exact absurd hdl2 hlt

lemma foldl_scan_inv (day : PDate) :
    ∀ (L : List FileName) (seen : List FileName)
      (acc : Option (PDate × FileName)), ScanInv day seen acc →
      ScanInv day (seen ++ L) (L.foldl (scanStep day) acc) := by
  intro L
  induction L with
  | nil => intro seen acc h; simpa using h
  | cons a t ih =>
    intro seen acc h
    simp only [List.foldl_cons]
    have h2 := ih (seen ++ [a]) (scanStep day acc a) (scanStep_inv day seen acc a h)
    rwa [List.append_assoc, List.singleton_append] at h2

/-! ## Claim theorems -/

/-- Claim C1: for a bucket of index above 0, `_base_for` returns the
captured price of the highest-indexed earlier bucket holding a numeric
price (missing captures are skipped), and the last-close fallback when
no earlier bucket holds one; for bucket 0 it returns the
previous-session value when numeric, and the last-close fallback
otherwise (the previous-close cache only ever holds `last_close`
values, expressed here as a coherence hypothesis). -/
theorem c1_baseline_resolution :
    ∀ (lc : Ticker → Option ℚ) (st : SessionState) (tk : Ticker),
      (∀ v, st.prevSessionBucket tk = some v → baseFor lc st tk 0 = some v) ∧
      (st.prevSessionBucket tk = none →
        (st.prevClose tk = none ∨ st.prevClose tk = lc tk) →
        baseFor lc st tk 0 = lc tk) ∧
      (∀ idx j v, j < idx → st.bucketPrices tk j = some v →
        (∀ k, j < k → k < idx → st.bucketPrices tk k = none) →
        baseFor lc st tk idx = some v) ∧
      (∀ idx, 0 < idx → (∀ j, j < idx → st.bucketPrices tk j = none) →
        (st.prevClose tk = none ∨ st.prevClose tk = lc tk) →
        baseFor lc st tk idx = lc tk) := by
  intro lc st tk
  refine ⟨?_, ?_, ?_, ?_⟩
  · intro v hv
    simp [baseFor, hv]
  · intro hv hc
    simp [baseFor, hv, ensurePrevClose_coherent lc st tk hc]
  · intro idx j v hj hf hk
    have hidx : ¬ idx = 0 := by omega
    simp only [baseFor, if_neg hidx]
    rw [findDesc_eq_some (st.bucketPrices tk) j v idx hj hf hk]
  · intro idx hidx hall hc
    have hidx0 : ¬ idx = 0 := by omega
    simp only [baseFor, if_neg hidx0]
    rw [findDesc_eq_none (st.bucketPrices tk) idx hall]
    exact ensurePrevClose_coherent lc st tk hc

/-- Witness for C1: with bucket 1 captured at 50 and bucket 2 missing,
the baseline of bucket 3 is 50. -/
theorem c1_baseline_resolution_witness :
    baseFor lcSample c1State tk0 3 = some 50 :=
  (c1_baseline_resolution lcSample c1State tk0).2.2.1 3 1 50 (by omega)
    (by rfl)
    (fun k h1 h2 => by
      have hk : k = 2 := by omega
      subst hk; rfl)

/-- Claim C8 counterexample: an unknown key in the feature-flags file
survives `_load_features` — the loaded result holds the key `"bogus"`,
which is not a feature name, so "unknown keys pruned" fails. -/
theorem c8_unknown_key_retained :
    ("bogus", true) ∈ loadFeatures [("bogus", true)] ∧
    "bogus" ∉ FEATURE_NAMES := by
  constructor
  · decide
  · decide

/-- Claim C8 (amended): `_load_features` keeps the input object's
entries unchanged (unknown keys included — nothing is pruned) and
appends each known feature name that is missing with its default, so
every known name is present and every entry of the result comes from
the input or from the defaults. -/
theorem c8_features_load :
    ∀ loaded : List (String × Bool),
      (∀ n d, (n, d) ∈ FEATURE_DEFAULTS →
        (dictGet (loadFeatures loaded) n).isSome) ∧
      (∀ k v, (k, v) ∈ loadFeatures loaded →
        (k, v) ∈ loaded ∨ (k, v) ∈ FEATURE_DEFAULTS) ∧
      (∀ k, (dictGet loaded k).isSome →
        dictGet (loadFeatures loaded) k = dictGet loaded k) ∧
      (∀ n d, (n, d) ∈ FEATURE_DEFAULTS → dictGet loaded n = none →
        dictGet (loadFeatures loaded) n = some d) := by
  intro loaded
  refine ⟨?_, ?_, ?_, ?_⟩
  · intro n d hmem
    cases hn : dictGet loaded n with
    | some v =>
      unfold loadFeatures
      rw [foldl_featMerge_isSome _ _ _ (by rw [hn]; rfl), hn]
      rfl
    | none =>
      unfold loadFeatures
      rw [foldl_featMerge_new _ _ _ _ feature_names_nodup hmem hn]
      rfl
  · intro k v h
    exact foldl_featMerge_mem _ _ _ _ h
  · intro k h
    exact foldl_featMerge_isSome _ _ _ h
  · intro n d hmem hn
    exact foldl_featMerge_new _ _ _ _ feature_names_nodup hmem hn

/-- Witness for C8: an entry present in the file is preserved. -/
theorem c8_features_load_witness :
    dictGet (loadFeatures [("Replay Mode", true)]) "Replay Mode" =
      dictGet [("Replay Mode", true)] "Replay Mode" :=
  (c8_features_load [("Replay Mode", true)]).2.2.1 "Replay Mode" (by decide)

/-- Claim C10: formatting a date with `day_file_name` and parsing it
back with `_parse_workbook_date` recovers exactly that calendar date;
the parser accepts only names matching the workbook pattern whose digit
groups form a valid calendar date, and returns `None` otherwise. -/
theorem c10_filename_round_trip :
    (∀ y m d : Nat, isValidDate y m d = true →
       parseWorkbookDate (dayFileName (y, m, d)) = some (y, m, d)) ∧
    (∀ (s : FileName) (y m d : Nat), parseWorkbookDate s = some (y, m, d) →
       isValidDate y m d = true) ∧
    (∀ s : FileName, wbMatch s = none → parseWorkbookDate s = none) := by
  refine ⟨?_, ?_, ?_⟩
  · intro y m d hv
    have hb := hv
    simp only [isValidDate, Bool.and_eq_true, decide_eq_true_eq] at hb
    have hd31 := daysInMonth_le_31 y m
    unfold parseWorkbookDate
    rw [wbMatch_dayFileName y m d (by omega) (by omega) (by omega)]
    simp [hv]
  · intro s y m d h
    unfold parseWorkbookDate at h
    cases hw : wbMatch s with
    | none => rw [hw] at h; simp at h
    | some g =>
      obtain ⟨mo, dy, yr⟩ := g
      rw [hw] at h
      dsimp only at h
      by_cases hv : isValidDate yr mo dy = true
      · rw [if_pos hv] at h
        simp only [Option.some.injEq, Prod.mk.injEq] at h
        obtain ⟨rfl, rfl, rfl⟩ := h
        exact hv
      · rw [if_neg hv] at h
        simp at h
  · intro s h
    unfold parseWorkbookDate
    rw [h]

/-- Witness for C10 at the date 2026-10-12. -/
theorem c10_filename_round_trip_witness :
    parseWorkbookDate (dayFileName (2026, 10, 12)) = some (2026, 10, 12) :=
  c10_filename_round_trip.1 2026 10 12 (by decide)

/-- Claim C7: writing a session's per-bucket prices as the price column
of the bucket sheet and reading that sheet back with the bucket loader
reproduces exactly the same ticker-to-optional-price map (absent prices
read back as absent); this loader is the one behind
`prior_session_bucket`, which resolves the next session's bucket-0
baseline. -/
theorem c7_bucket_sheet_round_trip :
    ∀ (env : Env) (lc : Ticker → Option ℚ) (st : SessionState) (b : Nat)
      (path : FileName),
      env.sheetOf path (safeSheetName "4:00 PM") =
        some (bucketSheetFor lc st b) →
      ∀ tk, loadBucketFromWorkbook env path "4:00 PM" tk =
        st.bucketPrices tk b := by
  intro env lc st b path h tk
  unfold loadBucketFromWorkbook
  rw [h]
  unfold loadBucketSheet bucketSheetFor
  dsimp only
  have hr : 2 ≤ tk.val + 2 ∧ tk.val + 2 < 34 :=
    ⟨by omega, by have := tk.isLt; omega⟩
  rw [dif_pos hr]
  norm_num
  cases hx : st.bucketPrices tk b <;> simp [optCell]

/-- Witness for C7: the 4:00 PM bucket of `c7State` written by the
exporter and loaded back through `c7Env` yields the stored prices. -/
theorem c7_bucket_sheet_round_trip_witness :
    loadBucketFromWorkbook c7Env "Sheet__10_11_2026.xlsx".data "4:00 PM" tk0 =
      c7State.bucketPrices tk0 7 :=
  c7_bucket_sheet_round_trip c7Env (fun _ => none) c7State 7
    "Sheet__10_11_2026.xlsx".data rfl tk0

/-- Claim C2 (code bug): the bucket-calendar half holds — the highest-
indexed bucket whose threshold is at or before the wall-clock
`(hour, minute)`, none before 9:31 — but backfill does not process
buckets 0 through the current index.  Every bucket iteration ends with
`self._post_capture_hooks(...)`, a method `MainWindow` never defines
(its only definition is dead code nested inside
`_parse_workbook_date`), so the first iteration raises
`AttributeError` after bucket 0's captures and conditional export, the
function-level handler swallows it, and buckets `1..idx` are never
captured or exported — exhibited concretely at 10:30, where the
current index is 1. -/
theorem c2_backfill_aborts_after_bucket0 :
    (∀ (h : Fin 24) (m : Fin 60),
      (bucketIndexNow (h.val, m.val) = none ↔
        hmGe (h.val, m.val) (9, 31) = false) ∧
      ((bucketIndexNow (h.val, m.val)).getD 0 < 8) ∧
      (∀ i : Fin 8, bucketIndexNow (h.val, m.val) = some i.val →
        hmGe (h.val, m.val) (bucketThreshold i) = true ∧
        ∀ j : Fin 8, i.val < j.val →
          hmGe (h.val, m.val) (bucketThreshold j) = false)) ∧
    (∀ (env : Env) (fetch : Ticker → Nat → Option ℚ) (st : SessionState)
      (today : PDate) (hm : Nat × Nat) (idx : Nat),
      bucketIndexNow hm = some idx →
      (backfillToNow env fetch st today hm).2 = [0] ∧
      (∀ tk, ((backfillToNow env fetch st today hm).1).bucketPrices tk 0 =
        fetch tk 0) ∧
      (((backfillToNow env fetch st today hm).1).exportedStates 0).isSome ∧
      (∀ (tk : Ticker) (b : Nat), 0 < b →
        ((backfillToNow env fetch st today hm).1).bucketPrices tk b =
          (ensureSession env st today).bucketPrices tk b)) ∧
    (∀ (env : Env) (fetch : Ticker → Nat → Option ℚ) (st : SessionState)
      (today : PDate) (hm : Nat × Nat),
      bucketIndexNow hm = none →
      backfillToNow env fetch st today hm =
        (ensureSession env st today, [])) ∧
    bucketIndexNow (10, 30) = some 1 ∧
    (backfillToNow envSample c2Fetch emptyState (2026, 10, 12) (10, 30)).2 =
      [0] ∧
    ((backfillToNow envSample c2Fetch emptyState (2026, 10, 12)
        (10, 30)).1).bucketPrices tk0 1 = none := by
  have hB : ∀ (env : Env) (fetch : Ticker → Nat → Option ℚ)
      (st : SessionState) (today : PDate) (hm : Nat × Nat) (idx : Nat),
      bucketIndexNow hm = some idx →
      (backfillToNow env fetch st today hm).2 = [0] ∧
      (∀ tk, ((backfillToNow env fetch st today hm).1).bucketPrices tk 0 =
        fetch tk 0) ∧
      (((backfillToNow env fetch st today hm).1).exportedStates 0).isSome ∧
      (∀ (tk : Ticker) (b : Nat), 0 < b →
        ((backfillToNow env fetch st today hm).1).bucketPrices tk b =
          (ensureSession env st today).bucketPrices tk b) := by
    intro env fetch st today hm idx hidx
    rw [backfill_first_iteration fetch env st today hm idx hidx]
    refine ⟨rfl, ?_, ?_, ?_⟩
    · intro tk
      rw [maybeExport_fst_bucketPrices]
      rfl
    · rw [maybeExport_exported_self]
      rfl
    · intro tk b hb
      rw [maybeExport_fst_bucketPrices]
      have hb0 : ¬ b = 0 := by omega
      simp [processBucketCaptures, hb0]
      rfl
  refine ⟨by decide, hB, ?_, by decide, ?_, ?_⟩
  · intro env fetch st today hm h
    unfold backfillToNow
    rw [h]
  · exact (hB envSample c2Fetch emptyState (2026, 10, 12) (10, 30) 1
      (by decide)).1
  · rw [(hB envSample c2Fetch emptyState (2026, 10, 12) (10, 30) 1
      (by decide)).2.2.2 tk0 1 (by omega)]
    rfl

/-- Claim C5: when the observed date differs from the session's date,
the session reset leaves every captured-price map empty, clears the
per-bucket export snapshots, the last-processed-minute key and the
previous-close cache, and replaces the previous-session baseline with
the 4:00 PM bucket reloaded from the workbook with the greatest parsed
date strictly before the new date (none of the old session's data
survives). -/
theorem c5_session_rollover_reset :
    ∀ (env : Env) (st : SessionState) (cur : PDate),
      cur ≠ st.sessionDate →
      ((ensureSession env st cur).sessionDate = cur) ∧
      (∀ tk b, (ensureSession env st cur).bucketPrices tk b = none) ∧
      (∀ b, (ensureSession env st cur).exportedStates b = none) ∧
      ((ensureSession env st cur).lastTimerKey = none) ∧
      (∀ tk, (ensureSession env st cur).prevClose tk = none) ∧
      ((ensureSession env st cur).prevSessionBucket =
        priorSessionBucket env cur) ∧
      (latestWorkbookBefore cur env.files = none →
        ∀ tk, priorSessionBucket env cur tk = none) ∧
      (∀ p, latestWorkbookBefore cur env.files = some p →
        priorSessionBucket env cur = loadBucketFromWorkbook env p "4:00 PM" ∧
        p ∈ env.files ∧ globMatch p = true ∧
        ∃ dp, parseWorkbookDate p = some dp ∧ dateLt dp cur = true ∧
          ∀ f ∈ env.files, globMatch f = true →
            ∀ dt, parseWorkbookDate f = some dt → dateLt dt cur = true →
              dateLt dp dt = false) := by
  intro env st cur hne
  have hres : ensureSession env st cur = resetForNewSession env cur := by
    unfold ensureSession
    rw [if_pos hne]
  have hinv : ScanInv cur (env.files.filter globMatch)
      ((env.files.filter globMatch).foldl (scanStep cur) none) := by
    have h0 : ScanInv cur [] none := by
      intro g hg
      simp at hg
    have := foldl_scan_inv cur (env.files.filter globMatch) [] none h0
    simpa using this
  refine ⟨by rw [hres]; rfl, fun tk b => by rw [hres]; rfl,
    fun b => by rw [hres]; rfl, by rw [hres]; rfl,
    fun tk => by rw [hres]; rfl, by rw [hres]; rfl, ?_, ?_⟩
  · intro hn tk
    unfold priorSessionBucket
    rw [hn]
  · intro p hp
    unfold latestWorkbookBefore at hp
    cases hacc : (env.files.filter globMatch).foldl (scanStep cur) none with
    | none => rw [hacc] at hp; cases hp
    | some bf =>
      rw [hacc] at hp
      have hbp : bf.2 = p := Option.some.inj hp
      rw [hacc] at hinv
      obtain ⟨hm, hpb, hltb, hmax⟩ := hinv
      rw [hbp] at hm hpb
      have hmem := List.mem_filter.mp hm
      refine ⟨?_, hmem.1, hmem.2, bf.1, hpb, hltb, ?_⟩
      · unfold priorSessionBucket latestWorkbookBefore
        rw [hacc]
        simp only [Option.map_some']
        rw [hbp]
      · intro f hf hg dt hdt hlt
        exact hmax f (List.mem_filter.mpr ⟨hf, hg⟩) dt hdt hlt

/-- Witness for C5: rolling `c5State` (dated 2026-10-10, with captures)
to 2026-10-11 empties the captured-price map. -/
theorem c5_session_rollover_reset_witness :
    (ensureSession c5Env c5State (2026, 10, 11)).bucketPrices tk0 0 = none :=
  (c5_session_rollover_reset c5Env c5State (2026, 10, 11) (by decide)).2.1 tk0 0

/-- Witness for C2: at 10:30 (current index 1) the bucket-loop trace is
`[0]` — only bucket 0's iteration ran. -/
theorem c2_backfill_aborts_after_bucket0_witness :
    (backfillToNow envSample c2Fetch emptyState (2026, 10, 12)
        (10, 30)).2 = [0] :=
  (c2_backfill_aborts_after_bucket0.2.1 envSample c2Fetch emptyState
      (2026, 10, 12) (10, 30) 1 (by decide)).1

/-- Claim C3: the percentage delta is `(price / baseline - 1) * 100`
exactly when price and baseline are present and the baseline is
nonzero (105 against 100 gives +5.00); a zero baseline or an absent
operand yields an absent percentage, never an error or an infinite
value. -/
theorem c3_percentage_delta :
    (∀ p b : ℚ, b ≠ 0 → renderPct (some p) (some b) = some ((p / b - 1) * 100)) ∧
    renderPct (some 105) (some 100) = some 5 ∧
    (∀ p : ℚ, renderPct (some p) (some 0) = none) ∧
    (∀ b : Option ℚ, renderPct none b = none) ∧
    (∀ p : Option ℚ, renderPct p none = none) ∧
    (∀ p b : Option ℚ, (renderPct p b).isSome →
       ∃ q r, p = some q ∧ b = some r ∧ r ≠ 0) := by
  refine ⟨?_, ?_, ?_, ?_, ?_, ?_⟩
  · intro p b hb; simp [renderPct, hb]
  · norm_num [renderPct]
  · intro p; simp [renderPct]
  · intro b; cases b <;> simp [renderPct]
  · intro p; cases p <;> simp [renderPct]
  · intro p b h
    cases p with
    | none => simp [renderPct] at h
    | some q =>
      cases b with
      | none => simp [renderPct] at h
      | some r =>
        by_cases hr : r = 0
        · subst hr; simp [renderPct] at h
        · exact ⟨q, r, rfl, rfl, hr⟩

/-- Witness for C3 at price 105, baseline 100. -/
theorem c3_percentage_delta_witness :
    renderPct (some 105) (some 100) = some ((105 / 100 - 1) * 100) :=
  c3_percentage_delta.1 105 100 (by norm_num)

/-- Claim C4: export is idempotent per bucket — a second consecutive
`_maybe_export` with an unchanged snapshot never writes; a recorded
snapshot differing from the current one (in whole, or at any single
position, missing being distinct from every number) forces a write;
an equal snapshot skips the write and leaves state untouched. -/
theorem c4_export_idempotence :
    (∀ (st : SessionState) (b : Nat),
        (maybeExport (maybeExport st b false).1 b false).2 = false) ∧
    (∀ (st : SessionState) (b : Nat) (s : List (Option ℚ)),
        st.exportedStates b = some s → s ≠ snapshotForLabel st b →
        (maybeExport st b false).2 = true) ∧
    (∀ (st : SessionState) (b : Nat) (s : List (Option ℚ)) (i : Nat)
        (v w : Option ℚ), st.exportedStates b = some s →
        s.get? i = some v → (snapshotForLabel st b).get? i = some w → v ≠ w →
        (maybeExport st b false).2 = true) ∧
    (∀ (st : SessionState) (b : Nat),
        st.exportedStates b = some (snapshotForLabel st b) →
        maybeExport st b false = (st, false)) := by
  refine ⟨?_, ?_, ?_, ?_⟩
  · intro st b
    have h1 : ((maybeExport st b false).1).exportedStates b =
        some (snapshotForLabel ((maybeExport st b false).1) b) := by
      rw [snapshotForLabel_maybeExport]
      exact maybeExport_exported_self st b
    rw [maybeExport_skip _ b h1]
  · intro st b s hs hne
    have h : st.exportedStates b ≠ some (snapshotForLabel st b) := by
      rw [hs]
      exact fun hc => hne (Option.some.inj hc)
    rw [maybeExport_write st b h]
  · intro st b s i v w hs hv hw hvw
    have hne : s ≠ snapshotForLabel st b := by
      intro he
      rw [he, hw] at hv
      exact hvw (Option.some.inj hv).symm
    have h : st.exportedStates b ≠ some (snapshotForLabel st b) := by
      rw [hs]
      exact fun hc => hne (Option.some.inj hc)
    rw [maybeExport_write st b h]
  · intro st b h
    exact maybeExport_skip st b h

/-- Witness for C4: a recorded snapshot of all-numeric prices differs
from the current all-absent snapshot, so the export is performed. -/
theorem c4_export_idempotence_witness :
    (maybeExport c4State 0 false).2 = true :=
  c4_export_idempotence.2.1 c4State 0 (List.replicate 32 (some 1))
    (by rfl) (by decide)

/-- Claim C6 (code bug): on a non-empty minute series whose every bar is
after the requested bucket threshold, `price_at_or_before_bucket`
returns the NaN that `Series.asof` yields (its `v is None` fallback
guard tests the wrong sentinel), instead of falling back to
`last_close`; the empty-series and absent-series fallbacks do reach
`last_close`. -/
theorem c6_asof_nan_leak :
    priceAtOrBeforeBucket c6Fetch tk0 (2026, 10, 12) 9 31 = some PFloat.nan ∧
    c6Fetch.lastClose tk0 = some 50 ∧
    priceAtOrBeforeBucket c6Fetch tk0 (2026, 10, 12) 10 5 =
      some (PFloat.num 100) ∧
    priceAtOrBeforeBucket c6FetchEmpty tk0 (2026, 10, 12) 9 31 =
      some (PFloat.num 50) ∧
    priceAtOrBeforeBucket c6FetchAbsent tk0 (2026, 10, 12) 9 31 =
      some (PFloat.num 50) := by
  refine ⟨?_, rfl, ?_, rfl, rfl⟩ <;> decide

/-- Claim C9: the export fill color is a function of the sign of the
percentage alone — fixed colors for positive, negative and
neutral/absent — and the grid path (parsed from display text) and the
bucket-sheet path (numeric pct column) both color through that same
function; the display-text parser recovers price and percentage. -/
theorem c9_color_by_sign :
    (∀ q : ℚ, 0 < q → excelColorFor (some q) = "22C55E") ∧
    (∀ q : ℚ, q < 0 → excelColorFor (some q) = "F87171") ∧
    excelColorFor (some 0) = "94A3B8" ∧
    excelColorFor none = "94A3B8" ∧
    (∀ p q : Option ℚ, pctSign p = pctSign q →
       excelColorFor p = excelColorFor q) ∧
    (∀ s : List Char, gridFillColor s = excelColorFor (parsePricePct s).2) ∧
    (∀ v : Option ℚ, bucketFillColor v = excelColorFor v) ∧
    parsePricePct "▲ 123.45  (+5.00%)".data = (some (2469 / 20), some 5) := by
  refine ⟨?_, ?_, ?_, ?_, ?_, ?_, ?_, ?_⟩
  · intro q hq; simp [excelColorFor, hq]
  · intro q hq; simp [excelColorFor, hq, not_lt.mpr (le_of_lt hq)]
  · simp [excelColorFor]
  · simp [excelColorFor]
  · intro p q h
    rw [excelColorFor_eq_sign, excelColorFor_eq_sign, h]
  · intro s; rfl
  · intro v; rfl
  · simp +decide [parsePricePct, stripEnds, searchNum, matchNumAt, searchPct,
      matchPctBody, natValDigits, dVal, isDigitChar, isPyWs]
    norm_num

/-- Witness for C9 at a concrete positive percentage. -/
theorem c9_color_by_sign_witness :
    excelColorFor (some 1) = "22C55E" :=
  c9_color_by_sign.1 1 (by norm_num)

end DOW30
